import Mathlib

/-
Verification development for the DHT server communications core
(src/dht_server/dht_server.py): a single-threaded UDP reactor with a
thread-safe outbound queue and a socketpair-based wakeup channel.

The embedding is split into three models, each shallow over the source:

1. A small-step interleaving machine for the send path: producer threads
   executing sendMessage (lines 115-123) interleaved with the reactor's
   wakeup branch (lines 97-102).  Primitive events are the four effects
   those code paths perform on the shared state (queue puts/gets and
   signal-byte writes/reads).
2. A per-iteration model of commsLoop (lines 74-102) with the outcomes of
   the fallible socket calls (recvfrom / sendto) supplied as oracles, used
   for the error-propagation and receive-bound claims.
3. A lifecycle model of __init__ (lines 50-66) and start (lines 105-112).

The payload type of a message is abstract (a Python dict in the source);
the bencode encoder is an external collaborator and is passed as a
function `enc` from payloads to byte strings (bytes are modelled as Nat).
-/

-- ======================================================================= Global variables
-- Line 17: PORT:int = 6881
def PORT : Nat := 6881

-- Line 18: SOCK_RECV_BUF_SIZE:int = 1024
def SOCK_RECV_BUF_SIZE : Nat := 1024

-- ======================================================================= Address (lines 24-31)
-- A Python object of class Address.  The class defines no __eq__, so `==`
-- on two Address objects falls back to object identity; we model identity
-- with an explicit object id `oid` distinct for distinct objects.
structure Address where
  oid : Nat
  addr : String
  port : Int
deriving DecidableEq, Repr

-- Lines 30-31: def asTuple(self): return (self.addr, self.port)
def Address.asTuple (a : Address) : String × Int := (a.addr, a.port)

-- Python default equality for instances of a class without __eq__:
-- identity comparison (a is b).
def Address.pyEq (a b : Address) : Bool := a.oid == b.oid

-- ======================================================================= Message (lines 36-44)
-- A Message stores the un-encoded dict `msg` and the destination `to`;
-- it has no field caching an encoded form.
structure Message (α : Type) where
  msg : α
  dst : Address  -- field is named `to` in the source; `to` is reserved in Lean
deriving DecidableEq, Repr

-- Lines 42-44: def encoded(self): return bencode(self.msg)
-- `enc` is the external bencode collaborator.
def Message.encoded (enc : α → List Nat) (m : Message α) : List Nat := enc m.msg

-- ======================================================================= Send-path interleaving machine
-- The four primitive shared-state effects of the send path:
--   enqueue  : self.send_queue.put(msg)        (line 119)
--   signal   : self.sig_send.send(b'\x00')     (line 123)
--   consume  : self.sig_recv.recv(1)           (line 98)
--   dequeue  : self.send_queue.get() + sendto  (lines 100-102)
inductive Ev (α : Type) where
  | enqueue (m : Message α)
  | signal
  | consume
  | dequeue
deriving DecidableEq, Repr

-- Shared state touched by the send path.  `queue` is send_queue (front of
-- the list = oldest item), `sigBytes` the bytes buffered in the socketpair.
-- `enqueued`, `sent`, `wire` and `consumed` are history variables: the
-- full put order, the messages passed to sendto in order, the actual
-- (bytes, address) datagrams written, and the signal bytes read.
structure SysState (α : Type) where
  queue : List (Message α)
  sigBytes : Nat
  enqueued : List (Message α)
  sent : List (Message α)
  wire : List (List Nat × (String × Int))
  consumed : Nat
deriving DecidableEq, Repr

def initState (α : Type) : SysState α := ⟨[], 0, [], [], [], 0⟩

-- Effect of one primitive event on the shared state.  `none` means the
-- event cannot fire: recv(1) with no byte buffered, or Queue.get() on an
-- empty queue, would block.
def stepEv (enc : α → List Nat) (s : SysState α) : Ev α → Option (SysState α)
  | .enqueue m =>
      some { s with queue := s.queue ++ [m], enqueued := s.enqueued ++ [m] }
  | .signal =>
      some { s with sigBytes := s.sigBytes + 1 }
  | .consume =>
      if 0 < s.sigBytes then
        some { s with sigBytes := s.sigBytes - 1, consumed := s.consumed + 1 }
      else none
  | .dequeue =>
      match s.queue with
      | [] => none
      | m :: rest =>
          some { s with queue := rest, sent := s.sent ++ [m],
                        wire := s.wire ++ [(m.encoded enc, m.dst.asTuple)] }

-- Lines 115-123 (sendMessage): put the message, THEN send one signal byte.
def sendMessageEvents (m : Message α) : List (Ev α) := [.enqueue m, .signal]

-- Lines 97-102 (the sig_recv branch of commsLoop): read one byte, then
-- get exactly one Message and send it.  There is no drain loop.
def wakeupBranchEvents (α : Type) : List (Ev α) := [.consume, .dequeue]

-- Deterministic executor for a sequence of primitive events.
def runEvents (enc : α → List Nat) (s : SysState α) : List (Ev α) → Option (SysState α)
  | [] => some s
  | e :: es =>
      match stepEv enc s e with
      | none => none
      | some s' => runEvents enc s' es

-- Events of a whole sequence of sendMessage calls by one producer.
def sendsEvs : List (Message α) → List (Ev α)
  | [] => []
  | m :: ms => sendMessageEvents m ++ sendsEvs ms

-- Events of n consecutive executions of the wakeup branch.
def branchesEvs (α : Type) : Nat → List (Ev α)
  | 0 => []
  | n + 1 => wakeupBranchEvents α ++ branchesEvs α n

-- A configuration of the concurrent system: the shared state, the
-- remaining event lists of the in-flight sendMessage calls (one list per
-- producer thread), and the remaining events of the reactor's current
-- wakeup-branch execution ([] = reactor idle in select).
structure Config (α : Type) where
  st : SysState α
  producers : List (List (Ev α))
  reactor : List (Ev α)

def initConfig (α : Type) : Config α := ⟨initState α, [], []⟩

-- Interleaving semantics: a new sendMessage call may begin at any time;
-- any in-flight producer may execute its next primitive event; the
-- reactor, when idle, may start a wakeup branch once select reports
-- sig_recv readable (a buffered byte exists), and otherwise executes the
-- next event of its current branch.
inductive Step (enc : α → List Nat) : Config α → Config α → Prop where
  | spawn (c : Config α) (m : Message α) :
      Step enc c ⟨c.st, sendMessageEvents m :: c.producers, c.reactor⟩
  | producer (c : Config α) (pre post : List (List (Ev α))) (e : Ev α)
      (rest : List (Ev α)) (s' : SysState α)
      (hp : c.producers = pre ++ (e :: rest) :: post)
      (hs : stepEv enc c.st e = some s') :
      Step enc c ⟨s', pre ++ rest :: post, c.reactor⟩
  | reactorStart (c : Config α)
      (hr : c.reactor = []) (hsig : 0 < c.st.sigBytes) :
      Step enc c ⟨c.st, c.producers, wakeupBranchEvents α⟩
  | reactorStep (c : Config α) (e : Ev α) (rest : List (Ev α)) (s' : SysState α)
      (hr : c.reactor = e :: rest)
      (hs : stepEv enc c.st e = some s') :
      Step enc c ⟨s', c.producers, rest⟩

inductive Reachable (enc : α → List Nat) : Config α → Prop where
  | init : Reachable enc (initConfig α)
  | step {c c' : Config α} : Reachable enc c → Step enc c c' → Reachable enc c'

-- ======================================================================= Per-iteration model of commsLoop (lines 74-102)
-- The OS side of sock.recvfrom(bufsize) on a UDP socket: at most bufsize
-- bytes of the arriving datagram are returned, the excess is discarded.
def recvfrom (dgram : List Nat) (bufsize : Nat) : List Nat := dgram.take bufsize

-- Observable state of one commsLoop execution.  `received` records each
-- (data, addr) pair returned by recvfrom, `wire` each datagram handed to
-- sendto, `logs` the (level, message-kind) log calls (string formatting
-- of the logged values is elided).
structure LoopSt (α : Type) where
  queue : List (Message α)
  received : List (List Nat × (String × Int))
  wire : List (List Nat × (String × Int))
  logs : List (String × String)
deriving DecidableEq, Repr

def initLoopSt (α : Type) : LoopSt α := ⟨[], [], [], []⟩

-- One select cycle, as seen by the loop body: which of the two sockets
-- select reported ready, and the outcomes of the fallible socket calls
-- (for recvfrom: either the raised OS error, or the full arriving
-- datagram with its source address; for sendto: the raised error or ok).
structure SelectCycle (α : Type) where
  sockReady : Bool
  sigReady : Bool
  recvOutcome : Except String (List Nat × (String × Int))
  sendOutcome : Except String Unit
deriving Repr

-- Lines 86-93: the inbound branch.  There is no try/except in commsLoop,
-- so a raised OS error propagates to the caller (modelled by Except).
def inboundBranch (st : LoopSt α)
    (recvOutcome : Except String (List Nat × (String × Int))) :
    Except String (LoopSt α) :=
  match recvOutcome with
  | .error e => .error e
  | .ok (dgram, a) =>
      let data := recvfrom dgram SOCK_RECV_BUF_SIZE
      .ok { st with received := st.received ++ [(data, a)],
                    logs := st.logs ++ [("debug", "Received data")] }

-- Lines 97-102: the outbound branch: recv(1) on the signal socket, one
-- send_queue.get(), a debug log, one sendto.  An error raised by sendto
-- propagates (no handler); the model's log history is not observable on
-- the error path (the real logger is an external effect).  The [] case
-- is where get() would block forever; runs whose consumed signal bytes
-- are covered by completed puts never reach it.
def outboundBranch (enc : α → List Nat) (st : LoopSt α)
    (sendOutcome : Except String Unit) : Except String (LoopSt α) :=
  match st.queue with
  | [] => .ok st
  | m :: rest =>
      match sendOutcome with
      | .error e => .error e
      | .ok _ =>
          .ok { st with queue := rest,
                        wire := st.wire ++ [(m.encoded enc, m.dst.asTuple)],
                        logs := st.logs ++ [("debug", "Sending Message")] }

-- Lines 78-102: one pass of the while body, iterating over the ready
-- sockets (main socket first, as select returns them in list order).
def loopBody (enc : α → List Nat) (st : LoopSt α) (cy : SelectCycle α) :
    Except String (LoopSt α) :=
  match (if cy.sockReady then inboundBranch st cy.recvOutcome else .ok st) with
  | .error e => .error e
  | .ok st1 => if cy.sigReady then outboundBranch enc st1 cy.sendOutcome else .ok st1

-- The while-running loop over a finite schedule of select cycles.  An
-- exception raised in the body is not caught anywhere in commsLoop: it
-- aborts the loop and propagates out.
def commsLoopRun (enc : α → List Nat) (st : LoopSt α) :
    List (SelectCycle α) → Except String (LoopSt α)
  | [] => .ok st
  | cy :: rest =>
      match loopBody enc st cy with
      | .error e => .error e
      | .ok st' => commsLoopRun enc st' rest

-- ======================================================================= Lifecycle model (__init__ and start)
-- The OS outcome of sock.bind(('0.0.0.0', PORT)).
structure InitEnv where
  bindOutcome : Except String Unit

structure ServerSt where
  running : Bool
  bound : Bool
  threadStarted : Bool
deriving DecidableEq, Repr

-- Lines 50-66 (__init__): creates the UDP socket and binds it to
-- ('0.0.0.0', PORT); running starts False, no comms thread yet.  A bind
-- failure is an exception raised inside the constructor, so it surfaces
-- to the caller of the constructor.
def initServer (env : InitEnv) : Except String ServerSt :=
  match env.bindOutcome with
  | .error e => .error e
  | .ok _ => .ok { running := false, bound := true, threadStarted := false }

-- Lines 105-112 (start): sets running = True and launches commsLoop in a
-- new thread.  It performs no socket operation and cannot fail.
def startServer (s : ServerSt) : ServerSt :=
  { s with running := true, threadStarted := true }

-- ======================================================================= Invariant of the send-path machine
-- Does a producer's remaining event list consist of exactly the pending
-- signal write (its put already done)?
def isSigOnly : List (Ev α) → Bool
  | [Ev.signal] => true
  | _ => false

-- Number of in-flight sendMessage calls that have completed their put but
-- not yet written their signal byte.
def pSig (ps : List (List (Ev α))) : Nat := ps.countP isSigOnly

-- One when the reactor has consumed a signal byte but not yet done the
-- matching get (it is between lines 98 and 100), zero otherwise.
def reactorDebt : List (Ev α) → Nat
  | [Ev.dequeue] => 1
  | _ => 0

-- Every in-flight producer is a suffix of a sendMessage execution.
def ProducerShapes (ps : List (List (Ev α))) : Prop :=
  ∀ p ∈ ps, (∃ m, p = sendMessageEvents m) ∨ p = [Ev.signal] ∨ p = []

-- The inductive invariant of the send path.
structure SysInv (enc : α → List Nat) (c : Config α) : Prop where
  shapes : ProducerShapes c.producers
  rshape : c.reactor = [] ∨ c.reactor = wakeupBranchEvents α ∨ c.reactor = [Ev.dequeue]
  count : c.st.sigBytes + pSig c.producers + reactorDebt c.reactor ≤ c.st.queue.length
  hist : c.st.enqueued = c.st.sent ++ c.st.queue
  cons : c.st.consumed = c.st.sent.length + reactorDebt c.reactor
  wireEq : c.st.wire = c.st.sent.map (fun m => (m.encoded enc, m.dst.asTuple))

-- ======================================================================= Concrete example run
-- A concrete instantiation used by witnesses: payloads are Nats and the
-- external encoder maps a payload n to the one-byte string [n].
def enc0 : Nat → List Nat := fun n => [n]

def addr0 : Address := ⟨0, "127.0.0.1", 6881⟩

def msg0 : Message Nat := ⟨1, addr0⟩

-- The configuration after one full sendMessage(msg0) with the reactor
-- still idle: msg0 queued, its signal byte buffered.
def cfgB : Config Nat := ⟨⟨[msg0], 1, [msg0], [], [], 0⟩, [[]], []⟩

-- The configuration after the reactor has additionally consumed the
-- signal byte and stands before its send_queue.get() (line 100).
def cfgA : Config Nat := ⟨⟨[msg0], 0, [msg0], [], [], 1⟩, [[]], [Ev.dequeue]⟩

-- The configuration after the get and sendto complete: one byte
-- consumed, one message sent on the wire.
def cfgC : Config Nat :=
  ⟨⟨[], 0, [msg0], [msg0], [([1], ("127.0.0.1", 6881))], 1⟩, [[]], []⟩

theorem isSigOnly_enqueue_cons (m : Message α) (l : List (Ev α)) :
    isSigOnly (Ev.enqueue m :: l) = false := rfl

theorem isSigOnly_sig : isSigOnly ([Ev.signal] : List (Ev α)) = true := rfl

theorem isSigOnly_nil : isSigOnly ([] : List (Ev α)) = false := rfl

theorem reactorDebt_nil : reactorDebt ([] : List (Ev α)) = 0 := rfl

theorem reactorDebt_consume_cons (l : List (Ev α)) :
    reactorDebt (Ev.consume :: l) = 0 := rfl

theorem reactorDebt_deq : reactorDebt ([Ev.dequeue] : List (Ev α)) = 1 := rfl

theorem sysInv_init (enc : α → List Nat) : SysInv enc (initConfig α) :=
  ⟨fun p hp => absurd hp (List.not_mem_nil p), Or.inl rfl,
   Nat.le_refl 0, rfl, rfl, rfl⟩

theorem sysInv_step {enc : α → List Nat} {c c' : Config α}
    (hi : SysInv enc c) (hs : Step enc c c') : SysInv enc c' := by
  obtain ⟨shapes, rshape, count, hist, cons, wireEq⟩ := hi
  cases hs with
  | spawn m =>
      refine ⟨?_, rshape, ?_, hist, cons, wireEq⟩
      · intro p hp
        rcases List.mem_cons.mp hp with h | h
        · exact Or.inl ⟨m, h⟩
        · exact shapes p h
      · simpa [pSig, List.countP_cons, sendMessageEvents,
          isSigOnly_enqueue_cons] using count
  | producer pre post e rest s' hp hstep =>
      have hpre : ∀ p ∈ pre, p ∈ c.producers := by
        intro p h; rw [hp]; exact List.mem_append_left _ h
      have hpost : ∀ p ∈ post, p ∈ c.producers := by
        intro p h; rw [hp]
        exact List.mem_append_right pre (List.mem_cons_of_mem _ h)
      have hmem : (e :: rest) ∈ c.producers := by
        rw [hp]; exact List.mem_append_right pre (List.mem_cons_self _ _)
      rcases shapes _ hmem with ⟨m, hm⟩ | hm | hm
      · -- the producer performs its put (line 119)
        simp only [sendMessageEvents, List.cons.injEq] at hm
        obtain ⟨rfl, rfl⟩ := hm
        simp only [stepEv, Option.some.injEq] at hstep
        subst hstep
        refine ⟨?_, rshape, ?_, ?_, cons, wireEq⟩
        · intro p hq
          rcases List.mem_append.mp hq with h | h
          · exact shapes p (hpre p h)
          · rcases List.mem_cons.mp h with h | h
            · exact Or.inr (Or.inl h)
            · exact shapes p (hpost p h)
        · rw [hp] at count
          simp [pSig, List.countP_append, List.countP_cons,
            isSigOnly_enqueue_cons, isSigOnly_sig] at count ⊢
          omega
        · rw [hist, List.append_assoc]
      · -- the producer writes its signal byte (line 123)
        simp only [List.cons.injEq] at hm
        obtain ⟨rfl, rfl⟩ := hm
        simp only [stepEv, Option.some.injEq] at hstep
        subst hstep
        refine ⟨?_, rshape, ?_, hist, cons, wireEq⟩
        · intro p hq
          rcases List.mem_append.mp hq with h | h
          · exact shapes p (hpre p h)
          · rcases List.mem_cons.mp h with h | h
            · exact Or.inr (Or.inr h)
            · exact shapes p (hpost p h)
        · rw [hp] at count
          simp [pSig, List.countP_append, List.countP_cons,
            isSigOnly_sig, isSigOnly_nil] at count ⊢
          omega
      · exact absurd hm (List.cons_ne_nil e rest)
  | reactorStart hr hsig =>
      rw [hr] at count cons
      refine ⟨shapes, Or.inr (Or.inl rfl), ?_, hist, ?_, wireEq⟩
      · simpa [reactorDebt_nil, wakeupBranchEvents,
          reactorDebt_consume_cons] using count
      · simpa [reactorDebt_nil, wakeupBranchEvents,
          reactorDebt_consume_cons] using cons
  | reactorStep e rest s' hr hstep =>
      rcases rshape with h | h | h
      · rw [hr] at h; exact absurd h (List.cons_ne_nil e rest)
      · -- the reactor consumes a signal byte (line 98)
        rw [hr] at h
        simp only [wakeupBranchEvents, List.cons.injEq] at h
        obtain ⟨rfl, rfl⟩ := h
        rw [hr] at count cons
        simp only [stepEv] at hstep
        by_cases hpos : 0 < c.st.sigBytes
        · rw [if_pos hpos] at hstep
          obtain rfl := Option.some.inj hstep
          refine ⟨shapes, Or.inr (Or.inr rfl), ?_, hist, ?_, wireEq⟩
          · simp only [reactorDebt_consume_cons] at count
            simp only [reactorDebt_deq]
            omega
          · simp only [reactorDebt_consume_cons] at cons
            simp only [reactorDebt_deq]
            omega
        · rw [if_neg hpos] at hstep
          exact absurd hstep (by simp)
      · -- the reactor performs its get and sendto (lines 100-102)
        rw [hr] at h
        simp only [List.cons.injEq] at h
        obtain ⟨rfl, rfl⟩ := h
        rw [hr] at count cons
        simp only [stepEv] at hstep
        rcases hq : c.st.queue with _ | ⟨m, q'⟩
        · rw [hq] at hstep
          exact absurd hstep (by simp)
        · rw [hq] at hstep
          simp only [Option.some.injEq] at hstep
          subst hstep
          rw [hq] at count hist
          refine ⟨shapes, Or.inl rfl, ?_, ?_, ?_, ?_⟩
          · simp only [reactorDebt_deq] at count
            simp only [reactorDebt_nil]
            simp only [List.length_cons] at count
            omega
          · rw [hist]; simp
          · simp only [reactorDebt_deq] at cons
            simp only [reactorDebt_nil, List.length_append,
              List.length_cons, List.length_nil]
            omega
          · rw [wireEq]; simp

theorem reachable_sysInv {enc : α → List Nat} {c : Config α}
    (h : Reachable enc c) : SysInv enc c := by
  induction h with
  | init => exact sysInv_init enc
  | step _ hs ih => exact sysInv_step ih hs

-- ======================================================================= Execution lemmas
theorem runEvents_append (enc : α → List Nat) (evs1 evs2 : List (Ev α))
    (s : SysState α) :
    runEvents enc s (evs1 ++ evs2) =
      (runEvents enc s evs1).bind (fun s' => runEvents enc s' evs2) := by
  induction evs1 generalizing s with
  | nil => simp [runEvents]
  | cons e es ih =>
      cases h : stepEv enc s e with
      | none => simp [runEvents, h]
      | some s' => simp [runEvents, h, ih]

-- Effect of a producer executing a whole sequence of sendMessage calls:
-- each message is appended to the queue and one signal byte per message
-- is written, in message order.
theorem runEvents_sends (enc : α → List Nat) (ms : List (Message α))
    (s : SysState α) :
    runEvents enc s (sendsEvs ms) =
      some ⟨s.queue ++ ms, s.sigBytes + ms.length, s.enqueued ++ ms,
            s.sent, s.wire, s.consumed⟩ := by
  induction ms generalizing s with
  | nil => simp [sendsEvs, runEvents]
  | cons m ms ih =>
      simp [sendsEvs, sendMessageEvents, runEvents, stepEv, ih,
        List.append_assoc]
      omega

-- Effect of n consecutive wakeup-branch executions: each consumes one
-- signal byte and sends exactly one message, oldest first.
theorem runEvents_branches (enc : α → List Nat) (n : Nat) (s : SysState α)
    (hsig : n ≤ s.sigBytes) (hq : n ≤ s.queue.length) :
    runEvents enc s (branchesEvs α n) =
      some ⟨s.queue.drop n, s.sigBytes - n, s.enqueued,
            s.sent ++ s.queue.take n,
            s.wire ++ (s.queue.take n).map (fun m => (m.encoded enc, m.dst.asTuple)),
            s.consumed + n⟩ := by
  induction n generalizing s with
  | zero => simp [branchesEvs, runEvents]
  | succ n ih =>
      obtain ⟨m, q', hq'⟩ : ∃ m q', s.queue = m :: q' := by
        cases hqq : s.queue with
        | nil => rw [hqq] at hq; simp at hq
        | cons a b => exact ⟨a, b, rfl⟩
      have hpos : 0 < s.sigBytes := lt_of_lt_of_le (Nat.succ_pos n) hsig
      have hsig' : n ≤ s.sigBytes - 1 := by omega
      have hq2 : n ≤ q'.length := by
        rw [hq'] at hq; simpa [List.length_cons] using Nat.lt_succ_iff.mp hq
      simp only [branchesEvs, wakeupBranchEvents, List.cons_append,
        List.nil_append, List.append_eq, runEvents, stepEv, if_pos hpos, hq']
      rw [ih _ hsig' (by simpa using hq2)]
      simp [hq', List.append_assoc]
      omega

theorem reach_cfgB : Reachable enc0 cfgB := by
  have h0 : Reachable enc0 (initConfig Nat) := Reachable.init
  have h1 := Reachable.step h0 (Step.spawn (initConfig Nat) msg0)
  have h2 := Reachable.step h1
    (Step.producer _ [] [] (Ev.enqueue msg0) [Ev.signal]
      ⟨[msg0], 0, [msg0], [], [], 0⟩ rfl rfl)
  exact Reachable.step h2
    (Step.producer _ [] [] Ev.signal [] ⟨[msg0], 1, [msg0], [], [], 0⟩ rfl rfl)

theorem reach_cfgA : Reachable enc0 cfgA := by
  have h3 := Reachable.step reach_cfgB
    (Step.reactorStart cfgB rfl (Nat.zero_lt_one))
  exact Reachable.step h3
    (Step.reactorStep _ Ev.consume [Ev.dequeue]
      ⟨[msg0], 0, [msg0], [], [], 1⟩ rfl rfl)

theorem reach_cfgC : Reachable enc0 cfgC :=
  Reachable.step reach_cfgA
    (Step.reactorStep cfgA Ev.dequeue []
      ⟨[], 0, [msg0], [msg0], [([1], ("127.0.0.1", 6881))], 1⟩ rfl rfl)

-- ======================================================================= Claims

/-- C1, counterexample: two sendMessage calls complete, then the reactor
handles one wakeup-readiness event (one full execution of the sig_recv
branch, lines 97-102).  The queue still holds the second message: a
single wakeup handling does NOT drain all queued items. -/
theorem c1_single_wakeup_not_drained :
    (runEvents enc0 (initState Nat)
        (sendsEvs [msg0, ⟨2, addr0⟩] ++ wakeupBranchEvents Nat)).map
        (fun s => s.queue)
      = some [⟨2, addr0⟩] := by rfl

/-- C1, amended: on each wakeup-readiness event the reactor consumes one
signal byte and dequeues exactly one message (the branch is
[consume, dequeue] with no drain loop); all N messages enqueued by N
completed sends are still drained, but it takes N wakeup-branch
executions, one per buffered signal byte, after which the queue is empty
and all N messages went out in order. -/
theorem c1_one_message_per_signal_byte (enc : α → List Nat)
    (ms : List (Message α)) :
    wakeupBranchEvents α = [Ev.consume, Ev.dequeue]
  ∧ runEvents enc (initState α) (sendsEvs ms ++ branchesEvs α ms.length) =
      some ⟨[], 0, ms, ms,
            ms.map (fun m => (m.encoded enc, m.dst.asTuple)), ms.length⟩ := by
  refine ⟨rfl, ?_⟩
  rw [runEvents_append, runEvents_sends]
  show runEvents enc _ (branchesEvs α ms.length) = _
  rw [runEvents_branches enc ms.length _ (by simp) (by simp)]
  simp [initState]

/-- C2, counterexample: a schedule whose first select cycle has recvfrom
raise an OS error.  commsLoop has no try/except, so the loop terminates
with that error and the second (well-formed) cycle is never processed —
the error is not absorbed. -/
theorem c2_loop_error_terminates :
    commsLoopRun enc0 (initLoopSt Nat)
      [⟨true, false, Except.error "ConnectionResetError", Except.ok ()⟩,
       ⟨true, false, Except.ok ([7], ("10.0.0.1", 9)), Except.ok ()⟩]
      = Except.error "ConnectionResetError" := by rfl

/-- C2, amended: socket read and write errors raised inside the loop body
are not caught anywhere in commsLoop: the first failed recvfrom (or
failed sendto) aborts the loop and the exception propagates out of it. -/
theorem c2_io_errors_propagate (enc : α → List Nat) (st : LoopSt α)
    (cy : SelectCycle α) (rest : List (SelectCycle α)) (e : String)
    (m : Message α) (q : List (Message α)) :
    (cy.sockReady = true → cy.recvOutcome = Except.error e →
        commsLoopRun enc st (cy :: rest) = Except.error e)
  ∧ (cy.sockReady = false → cy.sigReady = true → st.queue = m :: q →
        cy.sendOutcome = Except.error e →
        commsLoopRun enc st (cy :: rest) = Except.error e) := by
  constructor
  · intro h1 h2
    simp [commsLoopRun, loopBody, inboundBranch, h1, h2]
  · intro h1 h2 h3 h4
    simp [commsLoopRun, loopBody, outboundBranch, h1, h2, h3, h4]

/-- C2, witness for the amended theorem: a failing recvfrom and a failing
sendto each terminate the loop with the raised error. -/
theorem c2_io_errors_propagate_witness :
    commsLoopRun enc0 (initLoopSt Nat)
        [⟨true, false, Except.error "OSError", Except.ok ()⟩]
      = Except.error "OSError"
  ∧ commsLoopRun enc0 ⟨[msg0], [], [], []⟩
        [⟨false, true, Except.ok ([], ("", 0)), Except.error "OSError"⟩]
      = Except.error "OSError" :=
  ⟨(c2_io_errors_propagate enc0 (initLoopSt Nat)
      ⟨true, false, Except.error "OSError", Except.ok ()⟩ [] "OSError"
      msg0 []).1 rfl rfl,
   (c2_io_errors_propagate enc0 ⟨[msg0], [], [], []⟩
      ⟨false, true, Except.ok ([], ("", 0)), Except.error "OSError"⟩ []
      "OSError" msg0 []).2 rfl rfl rfl rfl⟩

/-- C3: sendMessage puts the message strictly before writing its one
signal byte (its event list is [enqueue, signal]); consequently in every
reachable configuration the buffered signal bytes never exceed the queued
messages, so whenever the wakeup channel is readable the queue already
holds at least the triggering message. -/
theorem c3_enqueue_before_signal (enc : α → List Nat) (m : Message α)
    (c : Config α) (h : Reachable enc c) :
    sendMessageEvents m = [Ev.enqueue m, Ev.signal]
  ∧ c.st.sigBytes ≤ c.st.queue.length
  ∧ (0 < c.st.sigBytes → c.st.queue ≠ []) := by
  have hc := (reachable_sysInv h).count
  refine ⟨rfl, by omega, fun hpos => ?_⟩
  have hlen : 0 < c.st.queue.length := by omega
  exact List.ne_nil_of_length_pos hlen

/-- C3, witness: after one completed sendMessage (configuration cfgB) the
signal byte is buffered and the triggering message is in the queue. -/
theorem c3_enqueue_before_signal_witness :
    sendMessageEvents msg0 = [Ev.enqueue msg0, Ev.signal]
  ∧ cfgB.st.sigBytes ≤ cfgB.st.queue.length
  ∧ cfgB.st.queue ≠ [] :=
  ⟨(c3_enqueue_before_signal enc0 msg0 cfgB reach_cfgB).1,
   (c3_enqueue_before_signal enc0 msg0 cfgB reach_cfgB).2.1,
   (c3_enqueue_before_signal enc0 msg0 cfgB reach_cfgB).2.2 (by decide)⟩

/-- C4, counterexample: the socket is bound in __init__, not in start():
a bind failure surfaces as an error from the constructor, while start()
is infallible — applied to an unbound server state it simply sets running
and launches the thread, leaving the socket unbound. -/
theorem c4_bind_in_constructor_cex :
    initServer ⟨Except.error "EADDRINUSE"⟩ = Except.error "EADDRINUSE"
  ∧ startServer ⟨false, false, false⟩ = ⟨true, false, true⟩ :=
  ⟨rfl, rfl⟩

/-- C4, amended: the constructor (__init__) binds the UDP socket, and a
bind failure (port in use / permission denied) surfaces to the caller of
the constructor; start() performs no bind and cannot fail — it marks
running = true and launches the reactor thread. -/
theorem c4_lifecycle (env : InitEnv) (s0 : ServerSt) (e : String) :
    (env.bindOutcome = Except.error e → initServer env = Except.error e)
  ∧ (env.bindOutcome = Except.ok () →
        initServer env = Except.ok ⟨false, true, false⟩)
  ∧ (startServer s0).running = true
  ∧ (startServer s0).threadStarted = true
  ∧ (startServer s0).bound = s0.bound := by
  refine ⟨fun h => ?_, fun h => ?_, rfl, rfl, rfl⟩
  · simp [initServer, h]
  · simp [initServer, h]

/-- C4, witness: a concrete failed bind surfaces from the constructor; a
concrete successful construction then started is running. -/
theorem c4_lifecycle_witness :
    initServer ⟨Except.error "EACCES"⟩ = Except.error "EACCES"
  ∧ initServer ⟨Except.ok ()⟩ = Except.ok ⟨false, true, false⟩
  ∧ (startServer ⟨false, true, false⟩).running = true :=
  ⟨(c4_lifecycle ⟨Except.error "EACCES"⟩ ⟨false, true, false⟩ "EACCES").1 rfl,
   (c4_lifecycle ⟨Except.ok ()⟩ ⟨false, true, false⟩ "x").2.1 rfl,
   (c4_lifecycle ⟨Except.ok ()⟩ ⟨false, true, false⟩ "x").2.2.1⟩

/-- C5: the outbound queue is FIFO — in every reachable configuration the
messages sent so far followed by the messages still queued equal the full
enqueue-order history, i.e. the reactor's get always returned the oldest
already-enqueued item and the sent sequence is a prefix of the enqueued
sequence. -/
theorem c5_fifo_order (enc : α → List Nat) (c : Config α)
    (h : Reachable enc c) :
    c.st.enqueued = c.st.sent ++ c.st.queue
  ∧ c.st.sent = c.st.enqueued.take c.st.sent.length := by
  have hh := (reachable_sysInv h).hist
  refine ⟨hh, ?_⟩
  rw [hh, List.take_left]

/-- C5, witness: in the concrete run reaching cfgC, the one sent message
is the first enqueued one. -/
theorem c5_fifo_order_witness :
    cfgC.st.enqueued = cfgC.st.sent ++ cfgC.st.queue
  ∧ cfgC.st.sent = cfgC.st.enqueued.take cfgC.st.sent.length :=
  c5_fifo_order enc0 cfgC reach_cfgC

/-- C6: a Message stores its payload unencoded (the constructor's payload
is recoverable unchanged), encoded() recomputes the encoder on the stored
payload, and on every reachable configuration each datagram on the wire
is exactly the encoder applied at send time to the payload of the message
dequeued for it. -/
theorem c6_lazy_encoding (enc : α → List Nat) (p : α) (a : Address)
    (c : Config α) (h : Reachable enc c) :
    (Message.mk p a).msg = p
  ∧ Message.encoded enc (Message.mk p a) = enc p
  ∧ c.st.wire = c.st.sent.map (fun m => (m.encoded enc, m.dst.asTuple)) :=
  ⟨rfl, rfl, (reachable_sysInv h).wireEq⟩

/-- C6, witness: in the concrete run reaching cfgC the wire datagram is
enc0 applied to msg0's payload. -/
theorem c6_lazy_encoding_witness :
    (Message.mk 5 addr0).msg = 5
  ∧ Message.encoded enc0 (Message.mk 5 addr0) = enc0 5
  ∧ cfgC.st.wire = cfgC.st.sent.map (fun m => (m.encoded enc0, m.dst.asTuple)) :=
  c6_lazy_encoding enc0 5 addr0 cfgC reach_cfgC

/-- C7: every inbound read is bounded by the single fixed receive size
SOCK_RECV_BUF_SIZE = 1024, which lies in [1024, 65507]; a datagram longer
than the bound is truncated (the obtained data is a strict cut, not the
whole datagram), and the inbound branch records exactly the truncated
data. -/
theorem c7_recv_bounded (st : LoopSt α) (d d2 : List Nat) (a : String × Int)
    (h : SOCK_RECV_BUF_SIZE < d.length) :
    1024 ≤ SOCK_RECV_BUF_SIZE ∧ SOCK_RECV_BUF_SIZE ≤ 65507
  ∧ (recvfrom d2 SOCK_RECV_BUF_SIZE).length ≤ SOCK_RECV_BUF_SIZE
  ∧ recvfrom d SOCK_RECV_BUF_SIZE ≠ d
  ∧ inboundBranch st (Except.ok (d, a)) =
      Except.ok { st with
        received := st.received ++ [(recvfrom d SOCK_RECV_BUF_SIZE, a)],
        logs := st.logs ++ [("debug", "Received data")] } := by
  refine ⟨by norm_num [SOCK_RECV_BUF_SIZE], by norm_num [SOCK_RECV_BUF_SIZE],
    ?_, ?_, rfl⟩
  · simp [recvfrom]
  · intro heq
    have : (recvfrom d SOCK_RECV_BUF_SIZE).length = SOCK_RECV_BUF_SIZE := by
      simp [recvfrom, Nat.min_eq_left (Nat.le_of_lt h)]
    rw [heq] at this
    omega

/-- C7, witness: a 1025-byte datagram is truncated to the 1024-byte
bound by the reactor's read. -/
theorem c7_recv_bounded_witness :
    SOCK_RECV_BUF_SIZE < (List.replicate 1025 0).length
  ∧ (1024 ≤ SOCK_RECV_BUF_SIZE ∧ SOCK_RECV_BUF_SIZE ≤ 65507
  ∧ (recvfrom [9, 9] SOCK_RECV_BUF_SIZE).length ≤ SOCK_RECV_BUF_SIZE
  ∧ recvfrom (List.replicate 1025 0) SOCK_RECV_BUF_SIZE ≠ List.replicate 1025 0
  ∧ inboundBranch (initLoopSt Nat)
        (Except.ok (List.replicate 1025 0, ("10.0.0.1", 9))) =
      Except.ok { initLoopSt Nat with
        received := (initLoopSt Nat).received ++
          [(recvfrom (List.replicate 1025 0) SOCK_RECV_BUF_SIZE, ("10.0.0.1", 9))],
        logs := (initLoopSt Nat).logs ++ [("debug", "Received data")] }) :=
  ⟨by rw [List.length_replicate]; norm_num [SOCK_RECV_BUF_SIZE],
   c7_recv_bounded (initLoopSt Nat) (List.replicate 1025 0) [9, 9]
     ("10.0.0.1", 9) (by rw [List.length_replicate]; norm_num [SOCK_RECV_BUF_SIZE])⟩

/-- C8, counterexample: two distinct Address objects constructed from the
same host and port are NOT equal — the class defines no __eq__, so Python
compares them by object identity. -/
theorem c8_value_equality_cex :
    Address.pyEq ⟨0, "127.0.0.1", 6881⟩ ⟨1, "127.0.0.1", 6881⟩ = false
  ∧ (Address.mk 0 "127.0.0.1" 6881).addr = (Address.mk 1 "127.0.0.1" 6881).addr
  ∧ (Address.mk 0 "127.0.0.1" 6881).port = (Address.mk 1 "127.0.0.1" 6881).port :=
  ⟨rfl, rfl, rfl⟩

/-- C8, amended: Address equality is by object identity, not by field
value: two Address objects are equal exactly when they are the same
object; every object equals itself; asTuple still exposes the field
values as a pair. -/
theorem c8_identity_equality (a b : Address) :
    (Address.pyEq a b = true ↔ a.oid = b.oid)
  ∧ Address.pyEq a a = true
  ∧ a.asTuple = (a.addr, a.port) := by
  refine ⟨?_, ?_, rfl⟩ <;> simp [Address.pyEq]

/-- C9: the wakeup branch consumes exactly one signal byte and dequeues
exactly one message (its event list is [consume, dequeue]); hence in
every reachable configuration with the reactor back at its select wait,
the number of signal bytes consumed equals the number of messages
dequeued and sent. -/
theorem c9_consumed_equals_sent (enc : α → List Nat) (c : Config α)
    (h : Reachable enc c) (hidle : c.reactor = []) :
    wakeupBranchEvents α = [Ev.consume, Ev.dequeue]
  ∧ c.st.consumed = c.st.sent.length := by
  have hc := (reachable_sysInv h).cons
  rw [hidle, reactorDebt_nil] at hc
  exact ⟨rfl, by omega⟩

/-- C9, witness: in the concrete run reaching cfgC, one byte was consumed
and one message was sent. -/
theorem c9_consumed_equals_sent_witness :
    wakeupBranchEvents Nat = [Ev.consume, Ev.dequeue]
  ∧ cfgC.st.consumed = cfgC.st.sent.length :=
  c9_consumed_equals_sent enc0 cfgC reach_cfgC rfl

/-- C10: whenever the reactor stands before its send_queue.get() (it has
consumed a signal byte and its remaining branch is the dequeue), the
queue is non-empty in every reachable configuration, so the blocking
take returns immediately instead of blocking. -/
theorem c10_get_never_blocks (enc : α → List Nat) (c : Config α)
    (h : Reachable enc c) (hd : c.reactor = [Ev.dequeue]) :
    c.st.queue ≠ [] ∧ ∃ s', stepEv enc c.st Ev.dequeue = some s' := by
  have hc := (reachable_sysInv h).count
  rw [hd, reactorDebt_deq] at hc
  have hlen : 0 < c.st.queue.length := by omega
  obtain ⟨m, q', hq⟩ := List.exists_cons_of_ne_nil (List.ne_nil_of_length_pos hlen)
  refine ⟨List.ne_nil_of_length_pos hlen, ?_⟩
  simp only [stepEv, hq]
  exact ⟨_, rfl⟩

/-- C10, witness: in the concrete configuration cfgA the reactor is about
to call get() and the queue indeed holds the triggering message. -/
theorem c10_get_never_blocks_witness :
    cfgA.st.queue ≠ [] ∧ ∃ s', stepEv enc0 cfgA.st Ev.dequeue = some s' :=
  c10_get_never_blocks enc0 cfgA reach_cfgA rfl
